import Mathlib

/-!
Verification of the Tayberry backup-studio core against its specification.

Each definition below is a shallow embedding of a function of the Python
source (`app/backup_core/...`); machine integers are modelled with `Int`
using `Int.ediv`/`Int.emod` (which agree with Python `//`/`%` for positive
divisors), filesystem trees with an inductive type, and exceptions with
explicit sum-typed outcomes.
-/

namespace BackupStudio

/- ------------------------------------------------------------------ -/
/- Calendar converter: `app/backup_core/jalali.py`                     -/
/- ------------------------------------------------------------------ -/

/-- Field-for-field image of the frozen dataclass `JalaliDate`. -/
structure JalaliDate where
  year : Int
  month : Int
  day : Int
deriving Repr, DecidableEq

/-- A Gregorian `datetime` as the converter sees it: the source reads only
`dt.year`, `dt.month`, `dt.day`, and Python's `datetime` guarantees these
are positive with `1 ≤ month ≤ 12`. Clock fields are carried so that
theorems can quantify over the full datetime. -/
structure DateTimeG where
  year : Nat
  month : Nat
  day : Nat
  hour : Nat
  minute : Nat
  second : Nat
deriving Repr, DecidableEq

/-- `g_days_in_month` from `gregorian_to_jalali`. -/
def g_days_in_month : List Int := [31, 28, 31, 30, 31, 30, 31, 31, 30, 31, 30, 31]

/-- `jalali_months` from `gregorian_to_jalali`. -/
def jalali_months : List Int := [31, 31, 31, 31, 31, 31, 30, 30, 30, 30, 30, 29]

/-- The final month-decomposition loop of `gregorian_to_jalali`:
`jm`/`jd` start at `0` and are only assigned when the loop body breaks,
so an exhausted loop yields `(0, 0)`. -/
def jalaliMonthLoop : List Int → Int → Nat → Int × Int
  | [], _, _ => (0, 0)
  | d :: rest, j, i => if j < d then ((i : Int) + 1, j + 1) else jalaliMonthLoop rest (j - d) (i + 1)

/-- Shallow embedding of `gregorian_to_jalali` (jalali.py lines 14-60).
Python `//` and `%` on the positive divisors used here coincide with
`Int.ediv` and `Int.emod`. -/
def gregorian_to_jalali (dt : DateTimeG) : JalaliDate :=
  let gy : Int := (dt.year : Int) - 1600
  let gm : Int := (dt.month : Int) - 1
  let gd : Int := (dt.day : Int) - 1
  let g0 : Int := 365 * gy + (gy + 3).ediv 4 - (gy + 99).ediv 100 + (gy + 399).ediv 400
  let g1 : Int := g0 + ((g_days_in_month.take (dt.month - 1)).foldl (· + ·) 0)
  let g2 : Int :=
    if gm > 1 ∧ ((gy.emod 4 = 0 ∧ gy.emod 100 ≠ 0) ∨ gy.emod 400 = 0) then g1 + 1 else g1
  let g_day_no : Int := g2 + gd
  let j0 : Int := g_day_no - 79
  let j_np : Int := j0.ediv 12053
  let j1 : Int := j0.emod 12053
  let jy0 : Int := 979 + 33 * j_np + 4 * (j1.ediv 1461)
  let j2 : Int := j1.emod 1461
  let jy : Int := if j2 ≥ 366 then jy0 + (j2 - 1).ediv 365 else jy0
  let j3 : Int := if j2 ≥ 366 then (j2 - 1).emod 365 else j2
  let md := jalaliMonthLoop jalali_months j3 0
  ⟨jy, md.1, md.2⟩

/- ------------------------------------------------------------------ -/
/- Time resolver: `app/backup_core/time_utils.py`                      -/
/- ------------------------------------------------------------------ -/

/-- Image of the frozen dataclass `TimeResult`: a resolved datetime (modelled
as an abstract instant) plus the tag of the source that produced it. -/
structure TimeResultM where
  dt : Nat
  source : String
deriving Repr, DecidableEq

/-- The observable outcome of one call to each `_get_time_*` helper: `none`
models any swallowed failure (timeout, HTTP error, malformed payload),
`some dt` a parseable answer. Each helper returns its fixed source tag. -/
structure NetworkOutcomes where
  worldtimeapi : Option Nat
  timeapi : Option Nat
  googleHeader : Option Nat
deriving Repr, DecidableEq

/-- The fixed getter chain of `get_current_time`, in source order, paired
with each getter's outcome. -/
def sourceGetters (net : NetworkOutcomes) : List (String × Option Nat) :=
  [("worldtimeapi.org", net.worldtimeapi),
   ("timeapi.io", net.timeapi),
   ("google-header", net.googleHeader)]

/-- The `for getter in (...)` loop of `get_current_time`: call each getter in
order, stop at the first non-`None` result. Also returns the list of getters
actually invoked, so that "tried exactly once" is observable. -/
def tryGetters : List (String × Option Nat) → List String × Option TimeResultM
  | [] => ([], none)
  | (name, res) :: rest =>
    match res with
    | some dt => ([name], some ⟨dt, name⟩)
    | none =>
      let r := tryGetters rest
      (name :: r.1, r.2)

/-- Shallow embedding of `get_current_time` (time_utils.py lines 79-99),
with the network interactions abstracted into their observable outcomes and
the local clock into `systemNow`. Returns the invoked getters and the
resolved time. -/
def get_current_time (useNetworkTime : Bool) (net : NetworkOutcomes) (systemNow : Nat) :
    List String × TimeResultM :=
  if useNetworkTime then
    match tryGetters (sourceGetters net) with
    | (tried, some r) => (tried, r)
    | (tried, none) => (tried, ⟨systemNow, "system"⟩)
  else ([], ⟨systemNow, "system"⟩)

/- ------------------------------------------------------------------ -/
/- Scanner: `app/backup_core/scanning.py`                              -/
/- ------------------------------------------------------------------ -/

/-- A directory entry of the scanned filesystem: `os.walk` sees plain files
and sub-directories with their children. -/
inductive Entry where
  | file (name : String)
  | dir (name : String) (children : List Entry)

/-- `PurePath.suffix`: index of the last dot of a filename, counted from the
front, as `str.rfind` computes it. -/
def rfindDot : List Char → Option Nat
  | [] => none
  | c :: rest =>
    match rfindDot rest with
    | some i => some (i + 1)
    | none => if c = '.' then some 0 else none

/-- `pathlib.PurePath.suffix`: the extension including its dot, empty when the
only dot is leading or trailing or there is none. -/
def pathSuffix (name : String) : String :=
  let cs := name.toList
  match rfindDot cs with
  | some i => if 0 < i ∧ i < cs.length - 1 then String.mk (cs.drop i) else ""
  | none => ""

/-- Whether the first list is an initial segment of the second. -/
def charsStartWith : List Char → List Char → Bool
  | [], _ => true
  | _ :: _, [] => false
  | p :: ps, c :: cs => p = c && charsStartWith ps cs

/-- Whether `pat` occurs as a contiguous sub-list. -/
def charsContain (pat : List Char) : List Char → Bool
  | [] => pat.isEmpty
  | c :: cs => charsStartWith pat (c :: cs) || charsContain pat cs

/-- Python's substring test `pattern in filename`. -/
def strContains (pat s : String) : Bool := charsContain pat.toList s.toList

/-- Image of the frozen dataclass `ScanConfig` (sets modelled as lists). -/
structure ScanConfigM where
  allowed_extensions : Option (List String)
  skip_dirs : List String
  skip_files : List String
  skip_if_contains : List String

/-- `DEFAULT_SKIP_DIRS` from scanning.py. -/
def DEFAULT_SKIP_DIRS : List String :=
  ["node_modules", ".next", ".turbo", "dist", "build", ".git", ".cache",
   "coverage", ".output", ".nx", ".vercel", ".expo", ".vscode", "tmp",
   "__pycache__", "venv", ".idea", "vendor", "Pods"]

/-- `DEFAULT_SKIP_FILES` from scanning.py. -/
def DEFAULT_SKIP_FILES : List String :=
  ["package-lock.json", "pnpm-lock.yaml", "yarn.lock", "LICENSE",
   "CHANGELOG", ".DS_Store", "README.md"]

/-- `DEFAULT_TEST_PATTERNS` from scanning.py. -/
def DEFAULT_TEST_PATTERNS : List String := [".spec.", ".test.", ".e2e-spec."]

/-- The three per-file `continue` checks of `iter_files`, in source order:
skip-file set, substring patterns, extension allow-set. -/
def fileAllowed (cfg : ScanConfigM) (filename : String) : Bool :=
  !cfg.skip_files.contains filename &&
  !cfg.skip_if_contains.any (fun pat => strContains pat filename) &&
  (match cfg.allowed_extensions with
   | none => true
   | some exts => exts.contains (pathSuffix filename))

/-- The files yielded from one `os.walk` directory visit (the inner
`for filename in filenames` loop of `iter_files`), as root-relative paths. -/
def dirFilesOf (cfg : ScanConfigM) (es : List Entry) : List (List String) :=
  es.filterMap fun e =>
    match e with
    | .file n => if fileAllowed cfg n then some [n] else none
    | .dir _ _ => none

mutual

/-- `iter_files` restricted to one directory's subtree: `os.walk` yields the
current directory's filtered files, then descends into the sub-directories
that survived the in-place pruning `dirnames[:] = [d for d in dirnames if d
not in config.skip_dirs]`. Paths are returned relative to the walk root. -/
def walkDir (cfg : ScanConfigM) (es : List Entry) : List (List String) :=
  dirFilesOf cfg es ++ walkSubdirs cfg es

/-- Descent into the un-pruned sub-directories, in order. -/
def walkSubdirs (cfg : ScanConfigM) : List Entry → List (List String)
  | [] => []
  | .file _ :: rest => walkSubdirs cfg rest
  | .dir n cs :: rest =>
    (if cfg.skip_dirs.contains n then [] else (walkDir cfg cs).map (n :: ·)) ++
      walkSubdirs cfg rest

end

/-- A file named `fname` sits under the directory chain `dirs` in the tree. -/
inductive HasFile : List Entry → List String → String → Prop
  | here {es : List Entry} {fname : String} :
      Entry.file fname ∈ es → HasFile es [] fname
  | there {es : List Entry} {d : String} {cs : List Entry} {dirs : List String}
      {fname : String} :
      Entry.dir d cs ∈ es → HasFile cs dirs fname → HasFile es (d :: dirs) fname

/-- The scan configuration of the C7 test vector: TS extensions, default
directory/file skip sets (which exclude `node_modules`), default test-file
patterns (which include `.test.`), as `iter_files_for_extensions` builds it. -/
def tsScanConfig : ScanConfigM :=
  ⟨some [".ts", ".tsx"], DEFAULT_SKIP_DIRS, DEFAULT_SKIP_FILES, DEFAULT_TEST_PATTERNS⟩

/-- The C7 project tree: files `a.ts`, `b.test.ts`, and `node_modules/c.ts`. -/
def c7Tree : List Entry :=
  [.file "a.ts", .file "b.test.ts", .dir "node_modules" [.file "c.ts"]]

/- ------------------------------------------------------------------ -/
/- Content readers: `steps/code_bundles.py` and `universal_backup.py`  -/
/- ------------------------------------------------------------------ -/

/-- The truncation marker appended by `read_text_with_limit`. -/
def TRUNCATION_NOTE : String := "\n\n# [TRUNCATED DUE TO SIZE]\n"

/-- Shallow embedding of `read_text_with_limit` (code_bundles.py lines
26-55). File bytes are `List Nat`; the byte-to-text decoding (UTF-8 with
replacement, which never fails) is abstracted as `decode`; the outcome of
`path.read_bytes()` is passed explicitly; `none` models the propagated
`BackupCancelled`. The second component collects calls to the optional
`warn` callback (`hasWarn` models whether one was supplied). -/
def read_text_with_limit (decode : List Nat → String) (path : String)
    (readBytes : Except String (List Nat)) (max_kb : Nat)
    (cancelledFlag : Bool) (hasWarn : Bool) : Option (String × List String) :=
  if cancelledFlag then none
  else
    match readBytes with
    | .ok data =>
      let max_bytes := max_kb * 1024
      if data.length > max_bytes then
        some (decode (data.take max_bytes) ++ TRUNCATION_NOTE, [])
      else
        some (decode data, [])
    | .error exc =>
      some ("# [UNREADABLE FILE: " ++ path ++ " | " ++ exc ++ "]",
        if hasWarn then ["Warning: could not read " ++ path ++ ": " ++ exc] else [])

/-- `_count_lines` from universal_backup.py. -/
def count_lines (content : String) : Nat :=
  (content.toList.filter (· = '\n')).length +
    (if content ≠ "" ∧ ¬ content.endsWith "\n" then 1 else 0)

/-- Python `f"{i:>{width}}"`: right-align a number in `width` columns. -/
def padNum (width n : Nat) : String :=
  let s := Nat.repr n
  String.mk (List.replicate (width - s.length) ' ') ++ s

/-- `_add_line_numbers` from universal_backup.py. -/
def add_line_numbers (content : String) : String :=
  let lines := content.splitOn "\n"
  let width := (Nat.repr lines.length).length
  String.intercalate "\n"
    ((lines.enumFrom 1).map (fun p => padNum width p.1 ++ " | " ++ p.2))

/-- Shallow embedding of `read_file_content` (universal_backup.py lines
215-242): returns `(content, was_truncated, line_count)`; any exception while
reading degrades to a placeholder that interpolates only the exception text.
Note the signature has no warning callback and no cancellation check. -/
def read_file_content (decode : List Nat → String) (path : String)
    (readBytes : Except String (List Nat)) (max_kb : Nat)
    (addLineNumbers : Bool) : String × Bool × Nat :=
  let _ := path
  match readBytes with
  | .ok data =>
    let max_bytes := max_kb * 1024
    let data' := if data.length > max_bytes then data.take max_bytes else data
    let truncated := decide (data.length > max_bytes)
    let content := decode data'
    let line_count := count_lines content
    let content' := if addLineNumbers then add_line_numbers content else content
    (content', truncated, line_count)
  | .error exc => ("[Error reading file: " ++ exc ++ "]", false, 0)

/-- A concrete byte-to-text decoder used by witnesses. -/
def bytesToString (bs : List Nat) : String := String.mk (bs.map Char.ofNat)

/- ------------------------------------------------------------------ -/
/- Cancellation checkpoints: engine.py / steps writers                 -/
/- ------------------------------------------------------------------ -/

/-
A cancellation oracle `oracle : Nat → Bool` gives the value of the shared
cancel flag (`BackupEngine.cancel_event`) at the k-th cancellation check of
the run; `_check_cancelled` and the writers' `cancel_check` consultations are
numbered in execution order. A result's final `Bool` records whether
`BackupCancelled` was raised (propagated to the caller, never swallowed).
-/

/-- The per-file loop of `_write_text_bundle` (code_bundles.py lines 111-138):
each file is preceded by the loop-top `cancel_check` and by the check inside
`read_text_with_limit`. Returns (entries written so far, next check index,
cancellation raised). -/
def writeTextBundleLoop (oracle : Nat → Bool) : Nat → List String → List String × Nat × Bool
  | k, [] => ([], k, false)
  | k, f :: rest =>
    if oracle k then ([], k + 1, true)
    else if oracle (k + 1) then ([], k + 2, true)
    else
      let r := writeTextBundleLoop oracle (k + 2) rest
      (f :: r.1, r.2.1, r.2.2)

/-- An engine step running the text-bundle writer (engine.py lines 229-250
pattern): `_check_cancelled()` runs before the writer is invoked; only then
does the writer create its bundle file and loop over the files. The first
component is `none` when the bundle file was never created. -/
def engineStepTextBundle (oracle : Nat → Bool) (k : Nat) (files : List String) :
    Option (List String) × Nat × Bool :=
  if oracle k then (none, k + 1, true)
  else
    let r := writeTextBundleLoop oracle (k + 1) files
    (some r.1, r.2.1, r.2.2)

/-- The cancellation structure of `generate_paths_files` (paths.py lines
42-78): the scan collects every path with no cancellation check, then exactly
one check precedes each of the two listing writes. Returns (listing files
written, next check index, cancellation raised). The scanned paths do not
influence the number of checks. -/
def generatePathsFilesM (oracle : Nat → Bool) (k : Nat)
    (allPaths : List String) : List String × Nat × Bool :=
  let _ := allPaths
  if oracle k then ([], k + 1, true)
  else if oracle (k + 1) then (["paths"], k + 2, true)
  else (["paths", "paths_ts"], k + 2, false)

/- ------------------------------------------------------------------ -/
/- Engine: `app/backup_core/engine.py`, errors.py, config.py           -/
/- ------------------------------------------------------------------ -/

/-- The exception taxonomy seen by `run_backup`'s handlers (errors.py):
`BackupCancelled`, `BackupConfigError`, `BackupIOError`, plain `BackupError`,
and any non-backup exception; the carried string is Python's `str(exc)`. -/
inductive PyExc where
  | backupCancelled (msg : String)
  | backupConfigError (msg : String)
  | backupIOError (msg : String)
  | backupBaseError (msg : String)
  | otherException (msg : String)
deriving Repr, DecidableEq

/-- Python's `str(exc)`. -/
def excMessage : PyExc → String
  | .backupCancelled m => m
  | .backupConfigError m => m
  | .backupIOError m => m
  | .backupBaseError m => m
  | .otherException m => m

/-- The `except` clauses of `run_backup` (engine.py lines 445-451):
`BackupCancelled` is logged and re-raised, `BackupConfigError` re-raised
unchanged, and every other exception re-raised as `BackupIOError(str(exc))`. -/
def dispatchRunExc : PyExc → PyExc
  | .backupCancelled m => .backupCancelled m
  | .backupConfigError m => .backupConfigError m
  | e => .backupIOError (excMessage e)

/-- Image of the `BackupResult` dataclass (engine.py lines 33-44), with
paths as strings, datetimes as abstract instants and the perf-counter
duration as a `Nat`. -/
structure MBackupResult where
  backup_root_path : Option String := none
  created_files : List String := []
  created_directories : List String := []
  zip_path : Option String := none
  stats : List (String × List (String × Nat)) := []
  time_source : Option String := none
  started_at : Option Nat := none
  finished_at : Option Nat := none
  duration_seconds : Option Nat := none
  is_dry_run : Bool := false
deriving Repr, DecidableEq

/-- The `try/except/finally` wrapper of `run_backup` (engine.py lines
204, 445-456): the body either completes with a result or stops at an
exception with the partially populated result; the `finally` block stamps
`finished_at` and `duration_seconds` unconditionally before the run returns
or re-raises the dispatched exception. -/
def runBackupWrap (body : MBackupResult × Option PyExc) (endTime dur : Nat) :
    MBackupResult × Option PyExc :=
  let r := { body.1 with finished_at := some endTime, duration_seconds := some dur }
  match body.2 with
  | none => (r, none)
  | some e => (r, some (dispatchRunExc e))

/-- `DEFAULT_INCLUDE_STEPS` plus `project_root_files` (config.py lines
115-128), i.e. `ALLOWED_STEPS`. -/
def ALLOWED_STEPS : List String :=
  ["trees", "code_txt", "ts_tsx_md_bundles", "full_ts_tsx_bundle", "configs",
   "tsconfig_bundle", "api_group_bundles", "paths", "keyword_search",
   "project_root_files"]

/-- Step-list resolution of `run_backup` (engine.py lines 172-179): keep the
requested steps that are recognized, then drop `project_root_files` when the
explicit override is `False` or the profile sets `no_root_files`. -/
def effectiveSteps (raw : List String) (includeProjectRootFiles : Option Bool)
    (noRootFiles : Bool) : List String :=
  let steps := raw.filter (fun s => ALLOWED_STEPS.contains s)
  if includeProjectRootFiles == some false || noRootFiles then
    steps.filter (fun s => s ≠ "project_root_files")
  else steps

/-- The unrecognized requested steps (engine.py line 173). -/
def invalidSteps (raw : List String) : List String :=
  raw.filter (fun s => !ALLOWED_STEPS.contains s)

/-- The warnings emitted while resolving the step list (engine.py lines
174-175): one aggregated warning naming every unknown step, only when there
is at least one. -/
def stepWarnings (raw : List String) : List String :=
  if invalidSteps raw ≠ [] then
    ["Ignoring unknown include_steps: " ++ String.intercalate ", " (invalidSteps raw)]
  else []

/-- Claim C9's description of the effective list, written from the spec's
words for comparison with `effectiveSteps`: the requested list in original
order with unrecognized names removed and `project_root_files` removed under
the no-root condition. -/
def specEffectiveSteps (raw : List String) (includeProjectRootFiles : Option Bool)
    (noRootFiles : Bool) : List String :=
  raw.filter (fun s =>
    ALLOWED_STEPS.contains s &&
      !((includeProjectRootFiles == some false || noRootFiles) &&
        s == "project_root_files"))

/-- The filesystem facts `_phase_prechecks` consults: existence and kind of
the project root, backup root and ZIP output directory. -/
structure EngineEnv where
  projectRootExists : Bool
  projectRootIsDir : Bool
  backupRootExists : Bool
  backupRootIsDir : Bool
  zipDirExists : Bool
  zipDirIsDir : Bool
deriving Repr, DecidableEq

/-- `result.stats[key] = val` for a key not yet present (each step records
its own key once; dict insertion order preserved as list order). -/
def addStat (r : MBackupResult) (key : String) (val : List (String × Nat)) :
    MBackupResult :=
  { r with stats := r.stats ++ [(key, val)] }

/-- The body of `run_backup` specialized to `dry_run = True` (engine.py lines
157-443 with every `if dry_run:` branch taken, and `_phase_prechecks` lines
461-523): no filesystem writes occur, each enabled step records a `planned`
placeholder statistic in the fixed code order, the ZIP phase is skipped when
`skipZip`, and the dry-run note write returns `None` so `created_files`
stays empty. The cancel flag is a per-run constant: when set, the first
`_check_cancelled` (at the top of the prechecks) raises; when clear, every
later per-step check passes too. -/
def dryRunBody (env : EngineEnv) (raw : List String)
    (includeProjectRootFiles : Option Bool) (noRootFiles : Bool)
    (skipZip : Bool) (hasSearchSets : Bool) (numActiveSets : Nat)
    (cancelled : Bool) (backupRoot stamp timeSource : String) (startTime : Nat) :
    MBackupResult × Option PyExc :=
  let steps := effectiveSteps raw includeProjectRootFiles noRootFiles
  let r0 : MBackupResult := { is_dry_run := true, started_at := some startTime }
  if cancelled then (r0, some (.backupCancelled "Backup cancelled by user"))
  else if !(env.projectRootExists && env.projectRootIsDir) then
    (r0, some (.backupConfigError "Project root does not exist or is not a directory"))
  else if env.backupRootExists && !env.backupRootIsDir then
    (r0, some (.backupConfigError "Backup root is not a directory"))
  else if !skipZip && (env.zipDirExists && !env.zipDirIsDir) then
    (r0, some (.backupConfigError "ZIP output directory is invalid"))
  else
    let r1 := { r0 with
      time_source := some timeSource,
      backup_root_path := some (backupRoot ++ "/Backup-" ++ stamp) }
    let r2 := if steps.contains "trees" then addStat r1 "trees" [("planned", 1)] else r1
    let r3 := if steps.contains "code_txt" then addStat r2 "code_txt" [("planned", 1)] else r2
    let r4 := if steps.contains "ts_tsx_md_bundles" then
      addStat r3 "ts_tsx_md_bundles" [("planned", 1)] else r3
    let r5 := if steps.contains "full_ts_tsx_bundle" then
      addStat r4 "full_ts_tsx_bundle" [("planned", 1)] else r4
    let r6 := if steps.contains "configs" || steps.contains "tsconfig_bundle" then
      addStat r5 "configs" [("planned", 1)] else r5
    let r7 := if steps.contains "api_group_bundles" then
      addStat r6 "api_group_bundles" [("planned", 1)] else r6
    let r8 := if steps.contains "paths" then addStat r7 "paths" [("planned", 1)] else r7
    let r9 := if steps.contains "keyword_search" && hasSearchSets then
      addStat r8 "keyword_search" [("planned", numActiveSets)] else r8
    let r10 := if steps.contains "project_root_files" then
      addStat r9 "project_root_files" [("planned", 1)] else r9
    let r11 := if !skipZip then addStat r10 "zip" [("planned", 1)] else r10
    (r11, none)

/-- A dry run of `run_backup`: the dry-run body fed through the
`try/except/finally` wrapper. -/
def run_backup_dry (env : EngineEnv) (raw : List String)
    (includeProjectRootFiles : Option Bool) (noRootFiles : Bool)
    (skipZip : Bool) (hasSearchSets : Bool) (numActiveSets : Nat)
    (cancelled : Bool) (backupRoot stamp timeSource : String)
    (startTime endTime dur : Nat) : MBackupResult × Option PyExc :=
  runBackupWrap
    (dryRunBody env raw includeProjectRootFiles noRootFiles skipZip hasSearchSets
      numActiveSets cancelled backupRoot stamp timeSource startTime)
    endTime dur

/- ------------------------------------------------------------------ -/
/- Theorems                                                            -/
/- ------------------------------------------------------------------ -/

set_option maxRecDepth 2000

/-- Claim C1: `gregorian_to_jalali` is a pure, deterministic function, and for
every datetime whose Gregorian date is 2024-03-20 (any clock reading) it
returns Jalali year 1403, month 1, day 1. Purity and determinism are inherent
to the Lean embedding (the result depends only on the argument); exactness at
the reference pair is proved for all clock fields. -/
theorem gregorian_to_jalali_reference_date (hour minute second : Nat) :
    gregorian_to_jalali ⟨2024, 3, 20, hour, minute, second⟩ = ⟨1403, 1, 1⟩ := by
  have h : gregorian_to_jalali ⟨2024, 3, 20, hour, minute, second⟩ =
      gregorian_to_jalali ⟨2024, 3, 20, 0, 0, 0⟩ := by
    simp only [gregorian_to_jalali]
  rw [h]
  decide

/-- Claim C10: the claim asserts every conversion of a date with year ≥ 1600
yields a structurally valid Jalali date (month 1..12, day within the month).
The code violates this on the last day of any Jalali leap year: Gregorian
2025-03-20 is Jalali 1403-12-30 (1403 is a leap year, so Esfand has 30 days),
but the month-decomposition loop subtracts all twelve month lengths without
breaking and leaves the initial `jm = 0`, `jd = 0`. This theorem evaluates the
embedded code at that failing input and records that the result is not a
structurally valid date. -/
theorem gregorian_to_jalali_leap_esfand_bug :
    gregorian_to_jalali ⟨2025, 3, 20, 0, 0, 0⟩ = ⟨1403, 0, 0⟩ ∧
    ¬ (1 ≤ (gregorian_to_jalali ⟨2025, 3, 20, 0, 0, 0⟩).month ∧
        1 ≤ (gregorian_to_jalali ⟨2025, 3, 20, 0, 0, 0⟩).day) := by
  constructor
  · decide
  · decide

/-- Claim C8: time resolution never fails (the embedding is a total function);
with `useNetworkTime = false` or with every network source failing it returns
the system clock tagged "system"; otherwise the first answering source in the
fixed chain worldtimeapi.org → timeapi.io → Google-Date-header wins; and no
source is consulted more than once (the invoked-getter list has no
duplicates and follows the fixed priority order). -/
theorem get_current_time_fallback_chain (useNetworkTime : Bool)
    (net : NetworkOutcomes) (systemNow : Nat) :
    (useNetworkTime = false →
      get_current_time useNetworkTime net systemNow = ([], ⟨systemNow, "system"⟩)) ∧
    (net.worldtimeapi = none → net.timeapi = none → net.googleHeader = none →
      (get_current_time useNetworkTime net systemNow).2 = ⟨systemNow, "system"⟩) ∧
    (useNetworkTime = true → ∀ d, net.worldtimeapi = some d →
      (get_current_time useNetworkTime net systemNow).2 = ⟨d, "worldtimeapi.org"⟩) ∧
    (useNetworkTime = true → ∀ d, net.worldtimeapi = none → net.timeapi = some d →
      (get_current_time useNetworkTime net systemNow).2 = ⟨d, "timeapi.io"⟩) ∧
    (useNetworkTime = true → ∀ d,
      net.worldtimeapi = none → net.timeapi = none → net.googleHeader = some d →
      (get_current_time useNetworkTime net systemNow).2 = ⟨d, "google-header"⟩) ∧
    (get_current_time useNetworkTime net systemNow).1.Nodup ∧
    (get_current_time useNetworkTime net systemNow).1.Sublist
      ["worldtimeapi.org", "timeapi.io", "google-header"] := by
  obtain ⟨w, t, g⟩ := net
  cases useNetworkTime <;> cases w <;> cases t <;> cases g <;>
    simp [get_current_time, tryGetters, sourceGetters]

/-- Witness for C8: the chain with worldtimeapi.org failing and timeapi.io
answering at instant 42 resolves to timeapi.io, evaluated concretely. -/
theorem get_current_time_fallback_chain_witness :
    (get_current_time true ⟨none, some 42, none⟩ 7).2 = ⟨42, "timeapi.io"⟩ :=
  (get_current_time_fallback_chain true ⟨none, some 42, none⟩ 7).2.2.2.1 rfl 42 rfl rfl

theorem mem_walkSubdirs {cfg : ScanConfigM} {p : List String} :
    ∀ {es : List Entry},
      p ∈ walkSubdirs cfg es ↔
        ∃ n cs q, Entry.dir n cs ∈ es ∧ cfg.skip_dirs.contains n = false ∧
          q ∈ walkDir cfg cs ∧ p = n :: q := by
  intro es
  induction es with
  | nil => simp [walkSubdirs]
  | cons e rest ih =>
    cases e with
    | file m =>
      rw [walkSubdirs, ih]
      simp only [List.mem_cons]
      constructor
      · rintro ⟨n, cs, q, h, hs, hq, hp⟩
        exact ⟨n, cs, q, Or.inr h, hs, hq, hp⟩
      · rintro ⟨n, cs, q, h | h, hs, hq, hp⟩
        · exact Entry.noConfusion h
        · exact ⟨n, cs, q, h, hs, hq, hp⟩
    | dir d cs =>
      rw [walkSubdirs, List.mem_append, ih]
      by_cases hskip : cfg.skip_dirs.contains d = true
      · rw [if_pos hskip]
        simp only [List.mem_cons]
        constructor
        · rintro (h | ⟨n, cs', q, h, hs, hq, hp⟩)
          · exact absurd h (List.not_mem_nil p)
          · exact ⟨n, cs', q, Or.inr h, hs, hq, hp⟩
        · rintro ⟨n, cs', q, h | h, hs, hq, hp⟩
          · injection h with h1 h2
            subst h1; subst h2
            rw [hskip] at hs
            exact Bool.noConfusion hs
          · exact Or.inr ⟨n, cs', q, h, hs, hq, hp⟩
      · rw [if_neg hskip]
        have hskip' : cfg.skip_dirs.contains d = false := by simpa using hskip
        simp only [List.mem_map, List.mem_cons]
        constructor
        · rintro (h | ⟨n, cs', q, h, hs, hq, hp⟩)
          · obtain ⟨q, hq, hp⟩ := h
            exact ⟨d, cs, q, Or.inl rfl, hskip', hq, hp.symm⟩
          · exact ⟨n, cs', q, Or.inr h, hs, hq, hp⟩
        · rintro ⟨n, cs', q, h | h, hs, hq, hp⟩
          · injection h with h1 h2
            subst h1; subst h2
            exact Or.inl ⟨q, hq, hp.symm⟩
          · exact Or.inr ⟨n, cs', q, h, hs, hq, hp⟩

theorem mem_dirFilesOf {cfg : ScanConfigM} {p : List String} {es : List Entry} :
    p ∈ dirFilesOf cfg es ↔
      ∃ n, Entry.file n ∈ es ∧ fileAllowed cfg n = true ∧ p = [n] := by
  rw [dirFilesOf, List.mem_filterMap]
  constructor
  · rintro ⟨e, he, hsome⟩
    cases e with
    | file n =>
      have hsome' : (if fileAllowed cfg n = true then some [n] else none) = some p := hsome
      by_cases hall : fileAllowed cfg n = true
      · rw [if_pos hall] at hsome'
        injection hsome' with h
        exact ⟨n, he, hall, h.symm⟩
      · rw [if_neg hall] at hsome'
        exact Option.noConfusion hsome'
    | dir n cs => exact Option.noConfusion hsome
  · rintro ⟨n, he, hall, hp⟩
    refine ⟨Entry.file n, he, ?_⟩
    show (if fileAllowed cfg n = true then some [n] else none) = some p
    rw [if_pos hall, hp]

theorem mem_walkDir_step {cfg : ScanConfigM} {p : List String} {es : List Entry} :
    p ∈ walkDir cfg es ↔
      (∃ n, Entry.file n ∈ es ∧ fileAllowed cfg n = true ∧ p = [n]) ∨
      (∃ n cs q, Entry.dir n cs ∈ es ∧ cfg.skip_dirs.contains n = false ∧
        q ∈ walkDir cfg cs ∧ p = n :: q) := by
  rw [walkDir, List.mem_append, mem_dirFilesOf, mem_walkSubdirs]

theorem ne_nil_of_mem_walkDir {cfg : ScanConfigM} {p : List String} {es : List Entry}
    (h : p ∈ walkDir cfg es) : p ≠ [] := by
  rcases mem_walkDir_step.mp h with ⟨n, _, _, hp⟩ | ⟨n, cs, q, _, _, _, hp⟩ <;>
    subst hp <;> exact List.cons_ne_nil _ _

theorem mem_walkDir_char (cfg : ScanConfigM) :
    ∀ (dirs : List String) (es : List Entry) (fname : String),
      (dirs ++ [fname]) ∈ walkDir cfg es ↔
        (HasFile es dirs fname ∧ (∀ d ∈ dirs, cfg.skip_dirs.contains d = false) ∧
          fileAllowed cfg fname = true) := by
  intro dirs
  induction dirs with
  | nil =>
    intro es fname
    rw [List.nil_append, mem_walkDir_step]
    constructor
    · rintro (⟨n, hmem, hall, hp⟩ | ⟨n, cs, q, _, _, hq, hp⟩)
      · injection hp with h1 _
        subst h1
        exact ⟨HasFile.here hmem, by simp, hall⟩
      · injection hp with _ h2
        exact absurd h2.symm (ne_nil_of_mem_walkDir hq)
    · rintro ⟨hf, _, hall⟩
      cases hf with
      | here hmem => exact Or.inl ⟨fname, hmem, hall, rfl⟩
  | cons d dirs ih =>
    intro es fname
    rw [List.cons_append, mem_walkDir_step]
    constructor
    · rintro (⟨n, _, _, hp⟩ | ⟨n, cs, q, hmem, hs, hq, hp⟩)
      · injection hp with _ h2
        exact absurd h2 (List.append_ne_nil_of_right_ne_nil dirs (List.cons_ne_nil fname []))
      · injection hp with h1 h2
        subst h1
        rw [← h2] at hq
        obtain ⟨hf, hds, hall⟩ := (ih cs fname).mp hq
        refine ⟨HasFile.there hmem hf, ?_, hall⟩
        intro x hx
        rcases List.mem_cons.mp hx with h | h
        · subst h; exact hs
        · exact hds x h
    · rintro ⟨hf, hds, hall⟩
      cases hf with
      | there hmem hf' =>
        rename_i cs
        refine Or.inr ⟨d, cs, dirs ++ [fname], hmem,
          hds d (List.mem_cons_self _ _), ?_, rfl⟩
        exact (ih cs fname).mpr ⟨hf', fun x hx => hds x (List.mem_cons_of_mem _ hx), hall⟩

/-- Claim C7: a file is yielded iff its name is not in the skip-file set, no
exclusion substring occurs in it, and (when an allow-set is configured) its
extension is in the allow-set — all under a chain of un-pruned directories;
and on the reference tree with files `a.ts`, `b.test.ts`, `node_modules/c.ts`
the scan yields exactly `a.ts`. -/
theorem iter_files_filter_conjunction :
    (∀ (cfg : ScanConfigM) (es : List Entry) (dirs : List String) (fname : String),
      (dirs ++ [fname]) ∈ walkDir cfg es ↔
        (HasFile es dirs fname ∧
          (∀ d ∈ dirs, cfg.skip_dirs.contains d = false) ∧
          cfg.skip_files.contains fname = false ∧
          (∀ pat ∈ cfg.skip_if_contains, strContains pat fname = false) ∧
          (∀ exts, cfg.allowed_extensions = some exts →
            exts.contains (pathSuffix fname) = true))) ∧
    walkDir tsScanConfig c7Tree = [["a.ts"]] := by
  constructor
  · intro cfg es dirs fname
    rw [mem_walkDir_char]
    have hall : fileAllowed cfg fname = true ↔
        (cfg.skip_files.contains fname = false ∧
          (∀ pat ∈ cfg.skip_if_contains, strContains pat fname = false) ∧
          (∀ exts, cfg.allowed_extensions = some exts →
            exts.contains (pathSuffix fname) = true)) := by
      rw [fileAllowed]
      cases hx : cfg.allowed_extensions with
      | none => simp [Bool.and_eq_true, Bool.not_eq_true', List.any_eq_false]
      | some exts =>
        simp [Bool.and_eq_true, Bool.not_eq_true', List.any_eq_false]
        tauto
    rw [hall]
  · have h1 : fileAllowed tsScanConfig "a.ts" = true := by decide
    have h2 : fileAllowed tsScanConfig "b.test.ts" = false := by decide
    have h3 : tsScanConfig.skip_dirs.contains "node_modules" = true := by decide
    simp [walkDir, walkSubdirs, dirFilesOf, c7Tree, h1, h2, h3]
    decide

/-- Witness for C7: the characterization instantiated on the reference tree at
the yielded file `a.ts` sitting under the empty directory chain. -/
theorem iter_files_filter_conjunction_witness :
    ([] ++ ["a.ts"]) ∈ walkDir tsScanConfig c7Tree :=
  (iter_files_filter_conjunction.1 tsScanConfig c7Tree [] "a.ts").mpr
    ⟨HasFile.here (by simp [c7Tree]), by simp, by decide, by decide, by decide⟩

/-- Claim C5: the bounded reader is deterministic (reading the same content
twice with the same ceiling gives identical results — inherent to the pure
embedding and stated as self-equality), includes at most `maxKB*1024` source
bytes, returns exactly the decoded source when it fits, and appends the
truncation marker exactly when the source exceeds the ceiling. -/
theorem read_text_with_limit_bounded (decode : List Nat → String) (path : String)
    (data : List Nat) (max_kb : Nat) (hasWarn : Bool) :
    (read_text_with_limit decode path (.ok data) max_kb false hasWarn =
      read_text_with_limit decode path (.ok data) max_kb false hasWarn) ∧
    (data.take (max_kb * 1024)).length ≤ max_kb * 1024 ∧
    (data.length ≤ max_kb * 1024 →
      read_text_with_limit decode path (.ok data) max_kb false hasWarn =
        some (decode data, [])) ∧
    (data.length > max_kb * 1024 →
      read_text_with_limit decode path (.ok data) max_kb false hasWarn =
        some (decode (data.take (max_kb * 1024)) ++ TRUNCATION_NOTE, [])) := by
  refine ⟨rfl, by simp, ?_, ?_⟩
  · intro hle
    rw [read_text_with_limit]
    simp [Nat.not_lt.mpr hle]
  · intro hgt
    rw [read_text_with_limit]
    simp [hgt]

/-- Witness for C5: a 3-byte content under a 1 KB ceiling is returned whole;
evaluated with the concrete decoder `bytesToString`. -/
theorem read_text_with_limit_bounded_witness :
    read_text_with_limit bytesToString "f.txt" (.ok [104, 105, 10]) 1 false true =
      some (bytesToString [104, 105, 10], []) :=
  (read_text_with_limit_bounded bytesToString "f.txt" [104, 105, 10] 1 true).2.2.1
    (by decide)

/-- Counterexample to Claim C6 as stated: the claim covers both cited content
readers, but `read_file_content` (universal_backup.py lines 241-242) returns a
placeholder that interpolates only the exception — for path `secret.txt` and
error `boom` the output is `[Error reading file: boom]`, which does not
contain the path — and its signature has no warning callback to report
through. -/
theorem read_file_content_placeholder_omits_path :
    read_file_content bytesToString "secret.txt" (.error "boom") 256 false =
      ("[Error reading file: boom]", false, 0) ∧
    charsContain "secret.txt".toList "[Error reading file: boom]".toList = false := by
  exact ⟨rfl, by decide⟩

/-- Claim C6 (amended): on any read error neither reader raises.
`read_text_with_limit` returns a placeholder embedding both the error and the
path and reports through the warning callback exactly when one is wired;
`read_file_content` returns a placeholder embedding only the error (no path,
no warning callback), with `truncated = false` and `line_count = 0`. -/
theorem content_reader_error_handling (decode : List Nat → String)
    (path exc : String) (max_kb : Nat) (hasWarn addLineNumbers : Bool) :
    read_text_with_limit decode path (.error exc) max_kb false hasWarn =
      some ("# [UNREADABLE FILE: " ++ path ++ " | " ++ exc ++ "]",
        if hasWarn then ["Warning: could not read " ++ path ++ ": " ++ exc] else []) ∧
    read_file_content decode path (.error exc) max_kb addLineNumbers =
      ("[Error reading file: " ++ exc ++ "]", false, 0) :=
  ⟨rfl, rfl⟩

theorem writeTextBundleLoop_checks_ge (oracle : Nat → Bool) :
    ∀ (files : List String) (k : Nat),
      k + (writeTextBundleLoop oracle k files).1.length ≤
        (writeTextBundleLoop oracle k files).2.1 := by
  intro files
  induction files with
  | nil => intro k; simp [writeTextBundleLoop]
  | cons f rest ih =>
    intro k
    rw [writeTextBundleLoop]
    by_cases h0 : oracle k = true
    · rw [if_pos h0]; simp
    · rw [if_neg h0]
      by_cases h1 : oracle (k + 1) = true
      · rw [if_pos h1]; simp
      · rw [if_neg h1]
        have := ih (k + 2)
        simp only [List.length_cons]
        omega

/-- Counterexample to Claim C4 as stated: the claim requires every writer to
re-check cancellation at least once per file processed, but the path-listings
writer performs exactly two checks per run regardless of how many scanned
paths it lists — here three files but only two checks. -/
theorem paths_writer_two_checks_for_three_files :
    (generatePathsFilesM (fun _ => false) 0 ["a.ts", "b.ts", "c.ts"]).2.1 = 2 ∧
    2 < (["a.ts", "b.ts", "c.ts"] : List String).length := by
  exact ⟨rfl, by decide⟩

/-- Claim C4 (amended): if the cancellation flag is set before a step starts,
the engine's per-step checkpoint raises `BackupCancelled` before the writer
performs any work, so the step produces no output files; the bundle-content
writers re-check cancellation at least once per file processed (two checks
per file for the text-bundle loop) and raise rather than swallow it; the
path-listings writer, however, checks only before each of its two listing
writes — twice per run, not once per file — which still means a flag set
before the step yields no listing output. -/
theorem step_cancellation_checkpoints (oracle : Nat → Bool) (k : Nat)
    (files : List String) (f : String) (rest allPaths : List String) :
    (oracle k = true → engineStepTextBundle oracle k files = (none, k + 1, true)) ∧
    (k + (writeTextBundleLoop oracle k files).1.length ≤
      (writeTextBundleLoop oracle k files).2.1) ∧
    (oracle k = true → writeTextBundleLoop oracle k (f :: rest) = ([], k + 1, true)) ∧
    (oracle k = true → generatePathsFilesM oracle k allPaths = ([], k + 1, true)) := by
  refine ⟨?_, writeTextBundleLoop_checks_ge oracle files k, ?_, ?_⟩
  · intro h
    rw [engineStepTextBundle, if_pos h]
  · intro h
    rw [writeTextBundleLoop, if_pos h]
  · intro h
    rw [generatePathsFilesM]
    simp [h]

/-- Witness for C4 (amended): with the flag set from the first check onward,
a text-bundle step over one file creates no bundle file and reports the
cancellation, evaluated concretely. -/
theorem step_cancellation_checkpoints_witness :
    engineStepTextBundle (fun _ => true) 0 ["x.ts"] = (none, 1, true) :=
  (step_cancellation_checkpoints (fun _ => true) 0 ["x.ts"] "x.ts" [] []).1 rfl

/-- Claim C2: for every run of `run_backup` — modelled as an arbitrary body
outcome fed through the wrapper — a `BackupCancelled` propagates unchanged, a
`BackupConfigError` propagates unchanged, any other exception is re-raised as
`BackupIOError` wrapping its message, and in every outcome `finished_at` and
`duration_seconds` are stamped before the run returns or raises. -/
theorem run_backup_failure_semantics (body : MBackupResult × Option PyExc)
    (endTime dur : Nat) :
    ((runBackupWrap body endTime dur).1.finished_at = some endTime ∧
      (runBackupWrap body endTime dur).1.duration_seconds = some dur) ∧
    (∀ m, body.2 = some (.backupCancelled m) →
      (runBackupWrap body endTime dur).2 = some (.backupCancelled m)) ∧
    (∀ m, body.2 = some (.backupConfigError m) →
      (runBackupWrap body endTime dur).2 = some (.backupConfigError m)) ∧
    (∀ e, body.2 = some e → (∀ m, e ≠ .backupCancelled m) →
      (∀ m, e ≠ .backupConfigError m) →
      (runBackupWrap body endTime dur).2 = some (.backupIOError (excMessage e))) ∧
    (body.2 = none → (runBackupWrap body endTime dur).2 = none) := by
  obtain ⟨r, exc⟩ := body
  cases exc with
  | none =>
    refine ⟨⟨rfl, rfl⟩, ?_, ?_, ?_, fun _ => rfl⟩
    · rintro m h; exact Option.noConfusion h
    · rintro m h; exact Option.noConfusion h
    · rintro e h; exact Option.noConfusion h
  | some e =>
    refine ⟨⟨rfl, rfl⟩, ?_, ?_, ?_, ?_⟩
    · rintro m h
      injection h with h
      subst h
      rfl
    · rintro m h
      injection h with h
      subst h
      rfl
    · rintro e' h hnc hncf
      injection h with h
      subst h
      cases e with
      | backupCancelled m => exact absurd rfl (hnc m)
      | backupConfigError m => exact absurd rfl (hncf m)
      | backupIOError m => rfl
      | backupBaseError m => rfl
      | otherException m => rfl
    · rintro h
      exact Option.noConfusion h

/-- Witness for C2: a body that stops at a bare `OSError`-style exception is
surfaced as `BackupIOError` with the same message, and the result is
time-stamped; evaluated at a concrete body/clock. -/
theorem run_backup_failure_semantics_witness :
    (runBackupWrap ({}, some (.otherException "disk full")) 9 4).2 =
      some (.backupIOError "disk full") ∧
    (runBackupWrap ({}, some (.otherException "disk full")) 9 4).1.finished_at = some 9 := by
  refine ⟨?_, ?_⟩
  · exact (run_backup_failure_semantics ({}, some (.otherException "disk full")) 9 4).2.2.2.1
      (.otherException "disk full") rfl (fun m h => PyExc.noConfusion h)
      (fun m h => PyExc.noConfusion h)
  · exact (run_backup_failure_semantics ({}, some (.otherException "disk full")) 9 4).1.1

/-- Claim C9: the engine's effective step list equals the requested list in
original order with every unrecognized name removed and with
`project_root_files` removed whenever the profile or the explicit override
disables it; removal of unknown names emits a warning naming them (never an
error — the resolution is total), and a warning is emitted exactly when some
requested name is unrecognized. -/
theorem effective_steps_resolution (raw : List String)
    (includeProjectRootFiles : Option Bool) (noRootFiles : Bool) :
    effectiveSteps raw includeProjectRootFiles noRootFiles =
      specEffectiveSteps raw includeProjectRootFiles noRootFiles ∧
    (stepWarnings raw ≠ [] ↔ ∃ s ∈ raw, ALLOWED_STEPS.contains s = false) := by
  constructor
  · rw [effectiveSteps, specEffectiveSteps]
    by_cases hroot : (includeProjectRootFiles == some false || noRootFiles) = true
    · rw [if_pos hroot]
      rw [List.filter_filter]
      apply List.filter_congr
      intro s _
      rw [hroot]
      by_cases hs : s = "project_root_files"
      · subst hs; simp
      · simp [hs]
    · rw [if_neg hroot]
      have hroot' : (includeProjectRootFiles == some false || noRootFiles) = false := by
        simpa using hroot
      apply List.filter_congr
      intro s _
      rw [hroot']
      simp
  · rw [stepWarnings]
    by_cases hinv : invalidSteps raw ≠ []
    · rw [if_pos hinv]
      simp only [ne_eq, List.cons_ne_nil, not_false_eq_true, true_iff]
      obtain ⟨s, hs⟩ := List.exists_mem_of_ne_nil _ hinv
      have := List.of_mem_filter hs
      exact ⟨s, List.mem_of_mem_filter hs, by simpa using this⟩
    · rw [if_neg hinv]
      have hinv' : invalidSteps raw = [] := by simpa using hinv
      constructor
      · intro h
        exact absurd rfl h
      · rintro ⟨s, hmem, hc⟩
        have hs : s ∈ invalidSteps raw := List.mem_filter.mpr ⟨hmem, by simpa using hc⟩
        rw [hinv'] at hs
        exact absurd hs (List.not_mem_nil s)

/-- Claim C3: a dry run with effective steps `["trees", "paths"]` and
`skip_zip = true` against a valid project root (and a usable backup root,
with no cancellation) completes without raising, with `backup_root_path`
set to the planned backup directory, `zip_path` unset, statistics exactly
`trees` and `paths` each recorded as a `planned` placeholder, and no files
or directories created. -/
theorem dry_run_trees_paths (env : EngineEnv)
    (includeProjectRootFiles : Option Bool) (noRootFiles : Bool)
    (hasSearchSets : Bool) (numActiveSets : Nat)
    (backupRoot stamp timeSource : String) (startTime endTime dur : Nat)
    (h1 : env.projectRootExists = true) (h2 : env.projectRootIsDir = true)
    (h3 : env.backupRootExists = true → env.backupRootIsDir = true) :
    run_backup_dry env ["trees", "paths"] includeProjectRootFiles noRootFiles
        true hasSearchSets numActiveSets false backupRoot stamp timeSource
        startTime endTime dur =
      ({ backup_root_path := some (backupRoot ++ "/Backup-" ++ stamp),
         created_files := [],
         created_directories := [],
         zip_path := none,
         stats := [("trees", [("planned", 1)]), ("paths", [("planned", 1)])],
         time_source := some timeSource,
         started_at := some startTime,
         finished_at := some endTime,
         duration_seconds := some dur,
         is_dry_run := true }, none) := by
  have hsteps : effectiveSteps ["trees", "paths"] includeProjectRootFiles noRootFiles =
      ["trees", "paths"] := by
    rcases includeProjectRootFiles with _ | b
    · cases noRootFiles <;> decide
    · cases b <;> cases noRootFiles <;> decide
  have hback : (env.backupRootExists && !env.backupRootIsDir) = false := by
    cases hx : env.backupRootExists
    · simp
    · simp [h3 hx]
  rw [run_backup_dry, dryRunBody, hsteps]
  have c1 : (["trees", "paths"] : List String).contains "trees" = true := rfl
  have c2 : (["trees", "paths"] : List String).contains "code_txt" = false := rfl
  have c3 : (["trees", "paths"] : List String).contains "ts_tsx_md_bundles" = false := rfl
  have c4 : (["trees", "paths"] : List String).contains "full_ts_tsx_bundle" = false := rfl
  have c5 : (["trees", "paths"] : List String).contains "configs" = false := rfl
  have c6 : (["trees", "paths"] : List String).contains "tsconfig_bundle" = false := rfl
  have c7 : (["trees", "paths"] : List String).contains "api_group_bundles" = false := rfl
  have c8 : (["trees", "paths"] : List String).contains "paths" = true := rfl
  have c9 : (["trees", "paths"] : List String).contains "keyword_search" = false := rfl
  have c10 : (["trees", "paths"] : List String).contains "project_root_files" = false := rfl
  simp only [h1, h2, hback, c1, c2, c3, c4, c5, c6, c7, c8, c9, c10,
    Bool.and_self, Bool.not_true, Bool.false_and, Bool.and_false, Bool.not_false,
    Bool.true_and, Bool.and_true, Bool.false_or, Bool.or_false, Bool.or_self,
    Bool.false_eq_true, eq_self_iff_true, if_false, if_true, ite_true, ite_false]
  rfl

/-- Witness for C3: a concrete healthy environment, evaluated end to end. -/
theorem dry_run_trees_paths_witness :
    run_backup_dry ⟨true, true, true, true, true, true⟩ ["trees", "paths"]
        none false true false 0 false "/backups" "1403-01-01_00-00" "system"
        3 5 2 =
      ({ backup_root_path := some ("/backups" ++ "/Backup-" ++ "1403-01-01_00-00"),
         created_files := [],
         created_directories := [],
         zip_path := none,
         stats := [("trees", [("planned", 1)]), ("paths", [("planned", 1)])],
         time_source := some "system",
         started_at := some 3,
         finished_at := some 5,
         duration_seconds := some 2,
         is_dry_run := true }, none) :=
  dry_run_trees_paths ⟨true, true, true, true, true, true⟩ none false false 0
    "/backups" "1403-01-01_00-00" "system" 3 5 2 rfl rfl (fun _ => rfl)

end BackupStudio
